import Mathlib

/-!
Verification development for the pypocketfft front end
(scipy/fft/_pocketfft/pypocketfft.cxx).

The file embeds the front-end logic of the binding layer: axis resolution
(makeaxes), normalization factors (norm_fct), output-buffer resolution
(prepare_output), the lastsize contract of c2r, the shape pipeline of r2c,
the real-input symmetric path of c2c, the Hartley folding pass, and the
argument tables of the module bindings.

The FFT kernels themselves (pocketfft::c2c, pocketfft::r2c, ...) and the
iterator classes (pocketfft::detail::rev_iter, simple_iter) live in
pocketfft_hdronly.h, which is not part of the embedded sources; where a
definition depends on them it is modelled from the specification and says
so in its doc comment.  Floating-point values are idealized: real scalars
are ℚ (or ℝ for the normalization factors, which involve a square root),
complex values are pairs of rationals.
-/

set_option autoImplicit false

/-- Element types dispatched by the module (three real and three complex
floating precisions, as in the DISPATCH macro). -/
inductive DType where
  | f32 | f64 | flong | c64 | c128 | clong
deriving DecidableEq

/-- The numpy kind character of a dtype: complex types have kind c
(pypocketfft.cxx line 166 tests the kind against the character c). -/
def DType.kind : DType → Char
  | .c64 => 'c'
  | .c128 => 'c'
  | .clong => 'c'
  | _ => 'f'

/-- Complex scalar, idealized over ℚ (std::complex of a floating type in the
source; only structural operations are used by the front end). -/
structure Cplx where
  re : ℚ
  im : ℚ
deriving DecidableEq

/-- Complex conjugation (std::conj). -/
def Cplx.conj (z : Cplx) : Cplx := ⟨z.re, -z.im⟩

/-- Boolean success test on Except values. -/
def exceptIsOk {α : Type} : Except String α → Bool
  | .ok _ => true
  | .error _ => false

/-- Normalization of one raw axis entry: negative entries get the rank added
(pypocketfft.cxx lines 68-71). -/
def normInt (ndim : Nat) (z : Int) : Int := if z < 0 then z + ndim else z

/-- Validation of one axis entry after normalization
(pypocketfft.cxx lines 72-73). -/
def normAxis (ndim : Nat) (z : Int) : Except String Nat :=
  if normInt ndim z ≥ ndim ∨ normInt ndim z < 0 then
    .error "axes exceeds dimensionality of output"
  else .ok (normInt ndim z).toNat

/-- The loop of makeaxes over the raw axis list (pypocketfft.cxx
lines 68-75): each entry is normalized and validated, order preserved. -/
def mapAxes (ndim : Nat) : List Int → Except String (List Nat)
  | [] => .ok []
  | z :: rest =>
    match normAxis ndim z with
    | .error e => .error e
    | .ok a =>
      match mapAxes ndim rest with
      | .error e => .error e
      | .ok as => .ok (a :: as)

/-- makeaxes (pypocketfft.cxx lines 55-76): absent axes become all axes in
ascending order; a present list is rejected when empty or longer than the
rank, then each entry is normalized and range-checked. -/
def makeaxes (ndim : Nat) (axes_ : Option (List Int)) : Except String (List Nat) :=
  match axes_ with
  | none => .ok (List.range ndim)
  | some tmp =>
    if tmp.length > ndim ∨ tmp.length = 0 then .error "bad axes argument"
    else mapAxes ndim tmp

/-- Product of the transformed-axis lengths (pypocketfft.cxx lines 99-101). -/
def prodAxes (shape axes : List Nat) : Nat :=
  axes.foldl (fun N a => N * shape.getD a 0) 1

/-- Scalar form of norm_fct (pypocketfft.cxx lines 87-93). -/
noncomputable def norm_fct_scalar (inorm : Int) (N : Nat) : Except String ℝ :=
  if inorm = 0 then .ok 1
  else if inorm = 2 then .ok (1 / (N : ℝ))
  else if inorm = 1 then .ok (1 / Real.sqrt (N : ℝ))
  else .error "invalid value for inorm (must be 0, 1, or 2)"

/-- Shape form of norm_fct (pypocketfft.cxx lines 95-103): mode 0 returns 1
before computing the product; otherwise the product of the listed axis
lengths is fed to the scalar form. -/
noncomputable def norm_fct (inorm : Int) (shape axes : List Nat) : Except String ℝ :=
  if inorm = 0 then .ok 1
  else norm_fct_scalar inorm (prodAxes shape axes)

/-- A strided-array buffer abstracted to its shape and contents. -/
structure Buf (β : Type) where
  shape : List Nat
  data : List Nat → β

/-- Modelled from the spec: the allocation path of prepare_output uses the
host array constructor (pybind11's array_t, outside the embedded sources);
per the specification it yields a zero-initialized buffer of exactly the
requested shape and element type. -/
def alloc_zero (β : Type) [Zero β] (dims : List Nat) : Buf β :=
  ⟨dims, fun _ => 0⟩

/-- prepare_output (pypocketfft.cxx lines 105-113).  With no caller array a
fresh buffer of the required dims is allocated.  A supplied object is cast
to an array of the required element type; the source then only checks that
the cast returned the identical object (which fails exactly when the
element type had to be converted).  The dims argument is never consulted in
the reuse branch.  The identity-of-cast test is modelled as an equality
test on the declared element type (the cast itself is host glue outside
the embedded sources). -/
def prepare_output {β : Type} [Zero β] (req : DType) (dims : List Nat)
    (out_ : Option (DType × Buf β)) : Except String (Buf β) :=
  match out_ with
  | none => .ok (alloc_zero β dims)
  | some (dt, b) =>
    if dt = req then .ok b
    else .error "unexpected data type for output array"

/-- Reflection of one coordinate across an axis of length s.
Modelled from the spec glossary: the mirror offset reflects coordinate c to
(length - c) mod length. -/
def mirrorCoord (s c : Nat) : Nat := (s - c) % s

/-- Mirror of a multi-index across the transformed axes.
Modelled from the spec: the MirrorIterator (pocketfft::detail::rev_iter,
not among the embedded sources) pairs every visited index with its
axis-reflected counterpart; untransformed axes keep their coordinate. -/
def mirrorIdx (shape axes idx : List Nat) : List Nat :=
  (List.range shape.length).map fun i =>
    if i ∈ axes then mirrorCoord (shape.getD i 0) (idx.getD i 0) else idx.getD i 0

/-- A multi-index lying inside an array of the given shape. -/
def ValidIdx (shape idx : List Nat) : Prop :=
  idx.length = shape.length ∧ ∀ i, i < shape.length → idx.getD i 0 < shape.getD i 0

/-- Membership in the stored forward half: the coordinate on the last
transformed axis is below n/2+1.  Modelled from the spec: this is the
extent walked by the forward side of the MirrorIterator (rev_iter uses the
array shape with the last transformed axis halved). -/
def inHalf (shape axes idx : List Nat) : Prop :=
  idx.getD (axes.getLastD 0) 0 < shape.getD (axes.getLastD 0) 0 / 2 + 1

instance instDecidableInHalf (shape axes idx : List Nat) : Decidable (inHalf shape axes idx) :=
  Nat.decLt _ _

/-- The symmetry-completion pass of c2c_sym_internal (pypocketfft.cxx
lines 150-158) as a function of the kernel-written half K: indices in the
stored half keep the kernel value, every other index receives the complex
conjugate of the value at its mirror.  The iterator itself is modelled
from the spec (rev_iter is not among the embedded sources). -/
def c2c_sym_fill (shape axes : List Nat) (K : List Nat → Cplx) : List Nat → Cplx :=
  fun q =>
    if inHalf shape axes q then K q
    else (K (mirrorIdx shape axes q)).conj

/-- Which of the two c2c code paths was taken. -/
inductive CPath where
  | direct | symmetric
deriving DecidableEq

/-- Result of a c2c call: the output shape handed to prepare_output and the
final contents. -/
structure SymRun where
  outShape : List Nat
  out : List Nat → Cplx

/-- c2c (pypocketfft.cxx lines 163-172) with its two internals
(c2c_internal lines 115-132, c2c_sym_internal lines 134-161).  A complex
dtype takes the direct path; a real floating dtype takes the symmetric
path: full-shape output, external r2c kernel (abstracted as K), then the
mirror completion pass.  Kc abstracts the c2c kernel output of the direct
path.  Any other dtype is rejected by the DISPATCH macro. -/
noncomputable def c2c_model (dt : DType) (shape : List Nat) (axes_ : Option (List Int))
    (inorm : Int) (Kc K : List Nat → Cplx) : Except String (CPath × SymRun) :=
  if dt.kind = 'c' then
    match makeaxes shape.length axes_ with
    | .error e => .error e
    | .ok axes =>
      match norm_fct inorm shape axes with
      | .error e => .error e
      | .ok _ => .ok (.direct, ⟨shape, Kc⟩)
  else if dt = .f64 ∨ dt = .f32 ∨ dt = .flong then
    match makeaxes shape.length axes_ with
    | .error e => .error e
    | .ok axes =>
      match norm_fct inorm shape axes with
      | .error e => .error e
      | .ok _ => .ok (.symmetric, ⟨shape, c2c_sym_fill shape axes K⟩)
  else .error "unsupported data type"

/-- The input shape with the last transformed axis halved to n/2+1
(pypocketfft.cxx line 180). -/
def halvedShape (shape axes : List Nat) : List Nat :=
  shape.set (axes.getLastD 0) (shape.getD (axes.getLastD 0) 0 / 2 + 1)

/-- The kernel invocation assembled by r2c_internal: input dims, halved
output dims, resolved axes, direction flag and normalization factor, as
passed to pocketfft::r2c (pypocketfft.cxx lines 188-190). -/
structure R2CRun where
  dims_in : List Nat
  dims_out : List Nat
  axes : List Nat
  forward : Bool
  fct : ℝ

/-- r2c_internal (pypocketfft.cxx lines 174-193): resolve axes, halve the
last transformed axis for the output shape, compute the normalization
factor over the input shape, and call the external kernel. -/
noncomputable def r2c_model (shape : List Nat) (axes_ : Option (List Int))
    (forward : Bool) (inorm : Int) : Except String R2CRun :=
  match makeaxes shape.length axes_ with
  | .error e => .error e
  | .ok axes =>
    match norm_fct inorm shape axes with
    | .error e => .error e
    | .ok fct => .ok ⟨shape, halvedShape shape axes, axes, forward, fct⟩

/-- The size_t modulus (lastsize and shape entries are size_t in the
source). -/
def USIZE : Nat := 2 ^ 64

/-- Resolution of the lastsize argument of c2r (pypocketfft.cxx line 237):
a zero lastsize is replaced by 2*n-1 computed in size_t arithmetic. -/
def c2r_resolve (n_in lastsize : Nat) : Nat :=
  if lastsize = 0 then (2 * n_in + (USIZE - 1)) % USIZE else lastsize

/-- The lastsize validation stage of c2r_internal (pypocketfft.cxx
lines 237-239): after resolution, lastsize/2 + 1 must equal the input
length on the last transformed axis. -/
def c2r_lastsize_check (n_in lastsize : Nat) : Except String Nat :=
  let ls := c2r_resolve n_in lastsize
  if ls / 2 + 1 ≠ n_in then .error "bad lastsize" else .ok ls

/-- The shape pipeline of c2r_internal (pypocketfft.cxx lines 230-241):
resolve the axes, read the input length of the last transformed axis,
resolve and validate lastsize, and produce the output shape with the last
transformed axis set to lastsize. -/
def c2r_model (shape : List Nat) (axes_ : Option (List Int)) (lastsize : Nat) :
    Except String (List Nat) :=
  match makeaxes shape.length axes_ with
  | .error e => .error e
  | .ok axes =>
    match c2r_lastsize_check (shape.getD (axes.getLastD 0) 0) lastsize with
    | .error e => .error e
    | .ok ls => .ok (shape.set (axes.getLastD 0) ls)

/-- Row-major enumeration of all multi-indices of a shape, the order in
which the iterators of the folding pass advance.  Modelled from the spec:
simple_iter and rev_iter (pocketfft_hdronly.h, not among the embedded
sources) walk their domains in this order. -/
def enumIndices : List Nat → List (List Nat)
  | [] => [[]]
  | s :: rest => (List.range s).flatMap fun c => (enumIndices rest).map fun idx => c :: idx

/-- One step of the folding loop of complex2hartley (pypocketfft.cxx
lines 304-306): the value re+im is written at the forward output offset p
and re-im at its mirror offset; the mirror write happens second, so it
wins when the two offsets coincide. -/
def hartleyStep (shape axes : List Nat) (a : List Nat → ℚ) (p : List Nat) (v : Cplx) :
    List Nat → ℚ :=
  fun q =>
    if q = mirrorIdx shape axes p then v.re - v.im
    else if q = p then v.re + v.im
    else a q

/-- complex2hartley (pypocketfft.cxx lines 288-311): the one-sided spectrum
tmp is walked by a forward iterator over tmpShape while a mirror iterator
walks the full output over its halved extent; the loop runs only after the
two remaining-element counts (the two domain sizes) are checked equal,
otherwise the internal-consistency error fires.  The iterators are
modelled from the spec by the row-major enumerations of the two domains,
advanced in lock-step. -/
def complex2hartley (outShape axes tmpShape : List Nat) (tmp : List Nat → Cplx)
    (init : List Nat → ℚ) : Except String (List Nat → ℚ) :=
  if tmpShape.prod ≠ (halvedShape outShape axes).prod then .error "oops"
  else .ok (((enumIndices tmpShape).zip (enumIndices (halvedShape outShape axes))).foldl
      (fun a pq => hartleyStep outShape axes a pq.2 (tmp pq.1)) init)

/-- genuine_hartley (pypocketfft.cxx lines 313-318): r2c with forward=true
over the same axes produces the one-sided spectrum (kernel output
abstracted as K), which complex2hartley folds into the full-shape real
output.  The dtype must be one of the three real precisions (both the r2c
dispatch and the complex2hartley dispatch reject anything else). -/
noncomputable def genuine_hartley_model (dt : DType) (shape : List Nat)
    (axes_ : Option (List Int)) (inorm : Int) (K : List Nat → Cplx)
    (init : List Nat → ℚ) : Except String (List Nat → ℚ) :=
  if dt = .f64 ∨ dt = .f32 ∨ dt = .flong then
    match r2c_model shape axes_ true inorm with
    | .error e => .error e
    | .ok run =>
      match makeaxes shape.length axes_ with
      | .error e => .error e
      | .ok axes => complex2hartley shape axes run.dims_out K init
  else .error "unsupported data type"

/-- Default value of a keyword argument in the module bindings. -/
inductive ArgDefault where
  | required | noneVal | boolVal (b : Bool) | intVal (n : Int)
deriving DecidableEq

/-- One argument of a module binding. -/
structure BindArg where
  name : String
  dflt : ArgDefault
deriving DecidableEq

/-- Argument table of the c2c binding (pypocketfft.cxx lines 535-536). -/
def c2c_args : List BindArg :=
  [⟨"a", .required⟩, ⟨"axes", .noneVal⟩, ⟨"forward", .boolVal true⟩,
   ⟨"inorm", .intVal 0⟩, ⟨"out", .noneVal⟩, ⟨"nthreads", .intVal 1⟩]

/-- Argument table of the r2c binding (pypocketfft.cxx lines 537-538). -/
def r2c_args : List BindArg :=
  [⟨"a", .required⟩, ⟨"axes", .noneVal⟩, ⟨"forward", .boolVal true⟩,
   ⟨"inorm", .intVal 0⟩, ⟨"out", .noneVal⟩, ⟨"nthreads", .intVal 1⟩]

/-- Argument table of the c2r binding (pypocketfft.cxx lines 539-540). -/
def c2r_args : List BindArg :=
  [⟨"a", .required⟩, ⟨"axes", .noneVal⟩, ⟨"lastsize", .intVal 0⟩,
   ⟨"forward", .boolVal true⟩, ⟨"inorm", .intVal 0⟩, ⟨"out", .noneVal⟩,
   ⟨"nthreads", .intVal 1⟩]

/-- Argument table of the r2r_fftpack binding (pypocketfft.cxx
lines 541-542): axes, real2hermitian and forward carry no default. -/
def r2r_fftpack_args : List BindArg :=
  [⟨"a", .required⟩, ⟨"axes", .required⟩, ⟨"real2hermitian", .required⟩,
   ⟨"forward", .required⟩, ⟨"inorm", .intVal 0⟩, ⟨"out", .noneVal⟩,
   ⟨"nthreads", .intVal 1⟩]

/-- Argument table of the separable_hartley binding (pypocketfft.cxx
lines 543-544). -/
def separable_hartley_args : List BindArg :=
  [⟨"a", .required⟩, ⟨"axes", .noneVal⟩, ⟨"inorm", .intVal 0⟩,
   ⟨"out", .noneVal⟩, ⟨"nthreads", .intVal 1⟩]

/-- Argument table of the genuine_hartley binding (pypocketfft.cxx
lines 545-546). -/
def genuine_hartley_args : List BindArg :=
  [⟨"a", .required⟩, ⟨"axes", .noneVal⟩, ⟨"inorm", .intVal 0⟩,
   ⟨"out", .noneVal⟩, ⟨"nthreads", .intVal 1⟩]

/-- Default recorded for a named argument of a binding. -/
def argDefault (args : List BindArg) (n : String) : Option ArgDefault :=
  (args.find? (fun a => a.name = n)).map (fun a => a.dflt)

/-! ## Helper lemmas -/

lemma getD_map_range (f : Nat → Nat) (n i : Nat) (h : i < n) :
    (List.map f (List.range n)).getD i 0 = f i := by
  rw [List.getD_eq_getElem?_getD, List.getElem?_map, List.getElem?_range h]
  rfl

lemma getD_mem {l : List Nat} {i : Nat} (h : i < l.length) : l.getD i 0 ∈ l := by
  rw [List.getD_eq_getElem?_getD, List.getElem?_eq_getElem h]
  exact List.getElem_mem h

lemma list_eq_of_getD {l₁ l₂ : List Nat} (hlen : l₁.length = l₂.length)
    (h : ∀ i, i < l₁.length → l₁.getD i 0 = l₂.getD i 0) : l₁ = l₂ := by
  apply List.ext_getElem hlen
  intro i h1 h2
  have h3 := h i h1
  rwa [List.getD_eq_getElem?_getD, List.getD_eq_getElem?_getD,
    List.getElem?_eq_getElem h1, List.getElem?_eq_getElem h2] at h3

lemma getLastD_mem {l : List Nat} (d : Nat) (h : l ≠ []) : l.getLastD d ∈ l := by
  cases l with
  | nil => exact absurd rfl h
  | cons a rest =>
    rw [List.getLastD_cons]
    exact List.getLastD_mem_cons rest a

lemma getD_set_self {l : List Nat} {i v : Nat} (h : i < l.length) :
    (l.set i v).getD i 0 = v := by
  rw [List.getD_eq_getElem?_getD, List.getElem?_set_self h]
  rfl

lemma getD_set_ne {l : List Nat} {i j v : Nat} (h : i ≠ j) :
    (l.set i v).getD j 0 = l.getD j 0 := by
  rw [List.getD_eq_getElem?_getD, List.getElem?_set_ne h, ← List.getD_eq_getElem?_getD]

lemma mirrorIdx_length (shape axes idx : List Nat) :
    (mirrorIdx shape axes idx).length = shape.length := by
  simp [mirrorIdx]

lemma mirrorIdx_getD (shape axes idx : List Nat) (i : Nat) (h : i < shape.length) :
    (mirrorIdx shape axes idx).getD i 0 =
      if i ∈ axes then mirrorCoord (shape.getD i 0) (idx.getD i 0) else idx.getD i 0 :=
  getD_map_range _ _ _ h

lemma mirrorCoord_invol {s c : Nat} (h : c < s) :
    mirrorCoord s (mirrorCoord s c) = c := by
  unfold mirrorCoord
  rcases Nat.eq_zero_or_pos c with h0 | h0
  · subst h0; simp
  · have h1 : s - c < s := by omega
    rw [Nat.mod_eq_of_lt h1]
    have h2 : s - (s - c) = c := by omega
    rw [h2, Nat.mod_eq_of_lt h]

lemma mirrorCoord_back_half {s c : Nat} (hc : c < s) (hh : ¬ c < s / 2 + 1) :
    mirrorCoord s c < s / 2 + 1 := by
  unfold mirrorCoord
  have h1 : s - c < s := by omega
  rw [Nat.mod_eq_of_lt h1]
  omega

lemma mirrorIdx_invol (axes : List Nat) {shape q : List Nat} (hq : ValidIdx shape q) :
    mirrorIdx shape axes (mirrorIdx shape axes q) = q := by
  apply list_eq_of_getD
  · rw [mirrorIdx_length]; exact hq.1.symm
  · intro i hi
    rw [mirrorIdx_length] at hi
    rw [mirrorIdx_getD _ _ _ _ hi, mirrorIdx_getD _ _ _ _ hi]
    by_cases hax : i ∈ axes
    · rw [if_pos hax, if_pos hax]
      exact mirrorCoord_invol (hq.2 i hi)
    · rw [if_neg hax, if_neg hax]

lemma Cplx.conj_conj (z : Cplx) : z.conj.conj = z := by
  cases z
  simp [Cplx.conj]

lemma sym_fill_herm (shape axes : List Nat) (hne : axes ≠ [])
    (hb : ∀ a ∈ axes, a < shape.length)
    (K : List Nat → Cplx)
    (hK : ∀ q, ValidIdx shape q → inHalf shape axes q →
        inHalf shape axes (mirrorIdx shape axes q) →
        K (mirrorIdx shape axes q) = (K q).conj)
    (q : List Nat) (hq : ValidIdx shape q) :
    c2c_sym_fill shape axes K (mirrorIdx shape axes q) =
      (c2c_sym_fill shape axes K q).conj := by
  have hlast : axes.getLastD 0 ∈ axes := getLastD_mem 0 hne
  have hlt : axes.getLastD 0 < shape.length := hb _ hlast
  have hc : q.getD (axes.getLastD 0) 0 < shape.getD (axes.getLastD 0) 0 := hq.2 _ hlt
  have hmq : (mirrorIdx shape axes q).getD (axes.getLastD 0) 0 =
      mirrorCoord (shape.getD (axes.getLastD 0) 0) (q.getD (axes.getLastD 0) 0) := by
    rw [mirrorIdx_getD _ _ _ _ hlt, if_pos hlast]
  have hinv := mirrorIdx_invol axes hq
  by_cases h1 : inHalf shape axes q
  · by_cases h2 : inHalf shape axes (mirrorIdx shape axes q)
    · simp only [c2c_sym_fill, if_pos h1, if_pos h2]
      exact hK q hq h1 h2
    · simp only [c2c_sym_fill, if_pos h1, if_neg h2]
      rw [hinv]
  · have h2 : inHalf shape axes (mirrorIdx shape axes q) := by
      unfold inHalf at h1 ⊢
      rw [hmq]
      exact mirrorCoord_back_half hc h1
    simp only [c2c_sym_fill, if_pos h2, if_neg h1]
    rw [Cplx.conj_conj]

lemma mapAxes_ok_of_forall {ndim : Nat} {l : List Int}
    (h : ∀ z ∈ l, ¬(normInt ndim z ≥ ndim ∨ normInt ndim z < 0)) :
    mapAxes ndim l = .ok (l.map fun z => (normInt ndim z).toNat) := by
  induction l with
  | nil => rfl
  | cons z rest ih =>
    have hz := h z (List.mem_cons_self z rest)
    have hrest := ih (fun w hw => h w (List.mem_cons_of_mem z hw))
    simp only [mapAxes, normAxis, if_neg hz, hrest, List.map_cons]

lemma mapAxes_error_of_exists {ndim : Nat} {l : List Int}
    (h : ∃ z ∈ l, normInt ndim z ≥ ndim ∨ normInt ndim z < 0) :
    mapAxes ndim l = .error "axes exceeds dimensionality of output" := by
  induction l with
  | nil => rcases h with ⟨z, hz, _⟩; cases hz
  | cons z rest ih =>
    by_cases hz : normInt ndim z ≥ ndim ∨ normInt ndim z < 0
    · simp only [mapAxes, normAxis, if_pos hz]
    · rcases h with ⟨w, hw, hbad⟩
      rcases List.mem_cons.mp hw with rfl | hw'
      · exact absurd hbad hz
      · have hr := ih ⟨w, hw', hbad⟩
        simp only [mapAxes, normAxis, if_neg hz, hr]

lemma mapAxes_ok_bounds {ndim : Nat} {l : List Int} {m : List Nat}
    (h : mapAxes ndim l = .ok m) : ∀ a ∈ m, a < ndim := by
  induction l generalizing m with
  | nil =>
    simp only [mapAxes] at h
    cases h
    intro a ha
    cases ha
  | cons z rest ih =>
    cases hz : normAxis ndim z with
    | error e =>
      simp only [mapAxes, hz] at h
      exact Except.noConfusion h
    | ok a =>
      cases hr : mapAxes ndim rest with
      | error e =>
        simp only [mapAxes, hz, hr] at h
        exact Except.noConfusion h
      | ok as =>
        simp only [mapAxes, hz, hr] at h
        cases h
        intro b hb
        rcases List.mem_cons.mp hb with rfl | hb'
        · unfold normAxis at hz
          by_cases hcond : normInt ndim z ≥ ndim ∨ normInt ndim z < 0
          · rw [if_pos hcond] at hz; cases hz
          · rw [if_neg hcond] at hz
            cases hz
            push_neg at hcond
            omega
        · exact ih hr b hb'

lemma makeaxes_ok_bounds {r : Nat} {ax : Option (List Int)} {m : List Nat}
    (h : makeaxes r ax = .ok m) : ∀ a ∈ m, a < r := by
  cases ax with
  | none =>
    simp only [makeaxes] at h
    cases h
    intro a ha
    exact List.mem_range.mp ha
  | some l =>
    by_cases hl : l.length > r ∨ l.length = 0
    · simp only [makeaxes, if_pos hl] at h
      exact Except.noConfusion h
    · simp only [makeaxes, if_neg hl] at h
      exact mapAxes_ok_bounds h

lemma norm_fct_zero (shape axes : List Nat) : norm_fct 0 shape axes = .ok 1 := by
  simp [norm_fct]

lemma norm_fct_one (shape axes : List Nat) :
    norm_fct 1 shape axes = .ok (1 / Real.sqrt (prodAxes shape axes : ℝ)) := by
  simp [norm_fct, norm_fct_scalar]

lemma norm_fct_two (shape axes : List Nat) :
    norm_fct 2 shape axes = .ok (1 / (prodAxes shape axes : ℝ)) := by
  simp [norm_fct, norm_fct_scalar]

lemma norm_fct_bad {m : Int} (h0 : m ≠ 0) (h1 : m ≠ 1) (h2 : m ≠ 2)
    (shape axes : List Nat) :
    norm_fct m shape axes = .error "invalid value for inorm (must be 0, 1, or 2)" := by
  simp [norm_fct, norm_fct_scalar, h0, h1, h2]

lemma norm_fct_ok_of_valid {m : Int} (h : m = 0 ∨ m = 1 ∨ m = 2)
    (shape axes : List Nat) : ∃ f, norm_fct m shape axes = .ok f := by
  rcases h with rfl | rfl | rfl
  · exact ⟨1, norm_fct_zero shape axes⟩
  · exact ⟨_, norm_fct_one shape axes⟩
  · exact ⟨_, norm_fct_two shape axes⟩

lemma enumIndices_length : ∀ s : List Nat, (enumIndices s).length = s.prod
  | [] => rfl
  | x :: rest => by
    simp only [enumIndices, List.length_flatMap, Function.comp_def, List.length_map,
      List.prod_cons, enumIndices_length rest]
    rw [List.map_const', List.length_range, List.sum_replicate, smul_eq_mul]

/-! ## Claim theorems -/

/-- C3: in c2r, a caller-supplied lastsize of 0 is inferred as 2*n-1 (in
size_t arithmetic) where n is the input's last-transformed-axis length; a
nonzero lastsize raises the bad-lastsize error exactly when
lastsize/2 + 1 differs from n.  Concretely, input last-axis length 5 with
lastsize 0 infers 9, and explicit lastsize 10 errors. -/
theorem c2r_lastsize_contract :
    (∀ n : Nat, 1 ≤ n → n < 2 ^ 63 → c2r_resolve n 0 = 2 * n - 1) ∧
    (∀ n ls : Nat, ls ≠ 0 →
      (c2r_lastsize_check n ls = .error "bad lastsize" ↔ ls / 2 + 1 ≠ n)) ∧
    c2r_model [5] none 0 = .ok [9] ∧
    c2r_model [5] none 10 = .error "bad lastsize" := by
  refine ⟨?_, ?_, rfl, rfl⟩
  · intro n h1 h2
    unfold c2r_resolve USIZE
    rw [if_pos rfl]
    omega
  · intro n ls hls
    have hres : c2r_resolve n ls = ls := by
      unfold c2r_resolve
      rw [if_neg hls]
    unfold c2r_lastsize_check
    rw [hres]
    by_cases hc : ls / 2 + 1 ≠ n
    · simp [hc]
    · simp [hc]

/-- Witness for C3 at the concrete inputs n = 5, lastsize = 10. -/
theorem c2r_lastsize_contract_witness :
    c2r_resolve 5 0 = 9 ∧
    (c2r_lastsize_check 5 10 = .error "bad lastsize" ↔ 10 / 2 + 1 ≠ 5) :=
  ⟨c2r_lastsize_contract.1 5 (by decide) (by norm_num),
   c2r_lastsize_contract.2.1 5 10 (by decide)⟩

/-- C10: with lastsize passed as 0 the bad-lastsize branch of c2r is
unreachable: for every input length n >= 1 (within the size_t range of an
array extent) the inferred 2*n-1 passes the check; a nonzero lastsize
passes exactly when it is 2*n-2 or 2*n-1. -/
theorem c2r_lastsize_check_unreachable (n : Nat) (h1 : 1 ≤ n) (h2 : n < 2 ^ 63) :
    c2r_lastsize_check n 0 = .ok (2 * n - 1) ∧
    (∀ ls : Nat, ls ≠ 0 →
      (c2r_lastsize_check n ls = .ok ls ↔ (ls = 2 * n - 2 ∨ ls = 2 * n - 1))) := by
  have hres : c2r_resolve n 0 = 2 * n - 1 := by
    unfold c2r_resolve USIZE
    rw [if_pos rfl]
    omega
  constructor
  · unfold c2r_lastsize_check
    rw [hres, if_neg (by omega)]
  · intro ls hls
    have hres2 : c2r_resolve n ls = ls := by
      unfold c2r_resolve
      rw [if_neg hls]
    unfold c2r_lastsize_check
    rw [hres2]
    by_cases hc : ls / 2 + 1 ≠ n
    · rw [if_pos hc]
      constructor
      · intro h
        exact Except.noConfusion h
      · intro h
        exfalso
        omega
    · rw [if_neg hc]
      constructor
      · intro _
        omega
      · intro _
        rfl

/-- Witness for C10 at n = 5. -/
theorem c2r_lastsize_check_unreachable_witness :
    c2r_lastsize_check 5 0 = .ok (2 * 5 - 1) ∧
    (∀ ls : Nat, ls ≠ 0 →
      (c2r_lastsize_check 5 ls = .ok ls ↔ (ls = 2 * 5 - 2 ∨ ls = 2 * 5 - 1))) :=
  c2r_lastsize_check_unreachable 5 (by decide) (by norm_num)

/-- C4: makeaxes returns all axes in ascending order when the argument is
absent; a present list errors when empty or longer than the rank; negative
entries get the rank added; entries still out of range after normalization
error; successful resolution maps the entries in caller order with no
deduplication.  Concrete cases: rank 3 with [-1] equals [2]; [] and
[0,1,2,3] both error; [1,1] passes through. -/
theorem makeaxes_contract :
    (∀ r : Nat, makeaxes r none = .ok (List.range r)) ∧
    (∀ (r : Nat) (l : List Int), l = [] ∨ l.length > r →
        makeaxes r (some l) = .error "bad axes argument") ∧
    (∀ (r : Nat) (l : List Int), l ≠ [] → l.length ≤ r →
      (∀ z ∈ l, 0 ≤ normInt r z ∧ normInt r z < r) →
        makeaxes r (some l) = .ok (l.map fun z => (normInt r z).toNat)) ∧
    (∀ (r : Nat) (l : List Int), l ≠ [] → l.length ≤ r →
      (∃ z ∈ l, normInt r z < 0 ∨ (r : Int) ≤ normInt r z) →
        makeaxes r (some l) = .error "axes exceeds dimensionality of output") ∧
    makeaxes 3 (some [-1]) = makeaxes 3 (some [2]) ∧
    makeaxes 3 (some [-1]) = .ok [2] ∧
    makeaxes 3 (some []) = .error "bad axes argument" ∧
    makeaxes 3 (some [0, 1, 2, 3]) = .error "bad axes argument" ∧
    makeaxes 3 (some [1, 1]) = .ok [1, 1] := by
  refine ⟨fun r => rfl, ?_, ?_, ?_, rfl, rfl, rfl, rfl, rfl⟩
  · intro r l h
    have hcond : l.length > r ∨ l.length = 0 := by
      rcases h with rfl | h
      · right; rfl
      · left; exact h
    simp only [makeaxes, if_pos hcond]
  · intro r l hne hlen hall
    have hcond : ¬(l.length > r ∨ l.length = 0) := by
      push_neg
      refine ⟨by omega, ?_⟩
      intro h0
      exact hne (List.length_eq_zero.mp h0)
    simp only [makeaxes, if_neg hcond]
    apply mapAxes_ok_of_forall
    intro z hz
    have h2 := hall z hz
    omega
  · intro r l hne hlen hex
    have hcond : ¬(l.length > r ∨ l.length = 0) := by
      push_neg
      refine ⟨by omega, ?_⟩
      intro h0
      exact hne (List.length_eq_zero.mp h0)
    simp only [makeaxes, if_neg hcond]
    apply mapAxes_error_of_exists
    rcases hex with ⟨z, hz, hbad⟩
    exact ⟨z, hz, by omega⟩

/-- Witness for C4: a negative and a positive entry resolved in order. -/
theorem makeaxes_contract_witness :
    makeaxes 3 (some [-3, 2]) = .ok ([-3, 2].map fun z => (normInt 3 z).toNat) :=
  makeaxes_contract.2.2.1 3 [-3, 2] (by decide) (by decide) (by decide)

/-- C5: norm_fct maps mode 0 to 1, mode 1 to 1/sqrt(N) and mode 2 to 1/N
with N the product of the listed axis lengths of the shape, and errors on
every other mode; concretely on shape [4,8], axes [0,1] the three modes
give 1/32, 1/sqrt(32) and 1. -/
theorem norm_fct_contract :
    (∀ shape axes : List Nat, norm_fct 0 shape axes = .ok 1) ∧
    (∀ shape axes : List Nat,
        norm_fct 1 shape axes = .ok (1 / Real.sqrt (prodAxes shape axes : ℝ))) ∧
    (∀ shape axes : List Nat,
        norm_fct 2 shape axes = .ok (1 / (prodAxes shape axes : ℝ))) ∧
    (∀ m : Int, m ≠ 0 → m ≠ 1 → m ≠ 2 → ∀ shape axes : List Nat,
        norm_fct m shape axes =
          .error "invalid value for inorm (must be 0, 1, or 2)") ∧
    norm_fct 2 [4, 8] [0, 1] = .ok (1 / 32) ∧
    norm_fct 1 [4, 8] [0, 1] = .ok (1 / Real.sqrt 32) ∧
    norm_fct 0 [4, 8] [0, 1] = .ok 1 := by
  refine ⟨norm_fct_zero, norm_fct_one, norm_fct_two,
    fun m h0 h1 h2 => norm_fct_bad h0 h1 h2, ?_, ?_, norm_fct_zero [4, 8] [0, 1]⟩
  · rw [norm_fct_two]
    have h32 : prodAxes [4, 8] [0, 1] = 32 := rfl
    rw [h32]
    norm_num
  · rw [norm_fct_one]
    have h32 : prodAxes [4, 8] [0, 1] = 32 := rfl
    rw [h32]
    norm_num

/-- Witness for C5 at the invalid mode 5. -/
theorem norm_fct_contract_witness :
    norm_fct 5 [4, 8] [0, 1] = .error "invalid value for inorm (must be 0, 1, or 2)" :=
  norm_fct_contract.2.2.2.1 5 (by decide) (by decide) (by decide) [4, 8] [0, 1]

/-- C7 counterexample: a caller-supplied output buffer of the right element
type but the wrong shape ([3] instead of the required [5]) is accepted and
reused unchanged, so a shape mismatch does not signal an error. -/
theorem prepare_output_shape_not_checked_cex :
    prepare_output .f64 [5] (some (.f64, (⟨[3], fun _ => 0⟩ : Buf ℚ))) =
      .ok ⟨[3], fun _ => 0⟩ ∧
    ([3] : List Nat) ≠ [5] :=
  ⟨rfl, by decide⟩

/-- C7 amended: a caller-supplied output array is reused exactly when its
element type matches the required one, and an element-type mismatch
signals an error; the required output shape is not consulted in the reuse
decision. -/
theorem prepare_output_type_only_contract (req dt : DType) (dims : List Nat)
    (b : Buf ℚ) :
    (dt = req → prepare_output req dims (some (dt, b)) = .ok b) ∧
    (dt ≠ req → prepare_output req dims (some (dt, b)) =
        .error "unexpected data type for output array") := by
  constructor
  · intro h
    simp [prepare_output, h]
  · intro h
    simp [prepare_output, h]

/-- Witness for the amended C7: a complex64 buffer supplied where float64
is required is rejected. -/
theorem prepare_output_type_only_contract_witness :
    prepare_output .f64 [4] (some (.c64, (⟨[4], fun _ => 0⟩ : Buf ℚ))) =
      .error "unexpected data type for output array" :=
  (prepare_output_type_only_contract .f64 .c64 [4] ⟨[4], fun _ => 0⟩).2 (by decide)

/-- C8: with no caller-supplied array, prepare_output allocates a fresh
zero-initialized buffer of exactly the required shape: every element reads
as zero. -/
theorem prepare_output_alloc_zero_init (dims : List Nat) :
    prepare_output .f64 dims (none : Option (DType × Buf ℚ)) = .ok (alloc_zero ℚ dims) ∧
    (alloc_zero ℚ dims).shape = dims ∧
    ∀ q : List Nat, (alloc_zero ℚ dims).data q = 0 :=
  ⟨rfl, rfl, fun _ => rfl⟩

/-- C9: the binding argument tables.  Five of the six operations declare
axes with default None (resolved by makeaxes to all axes ascending) and
forward with default true where the parameter exists, but the r2r_fftpack
binding declares both axes and forward without a default, so they are
mandatory there - contradicting the claim (and the r2r_fftpack docstring,
which promises transforming all axes when axes is not set). -/
theorem binding_defaults_table :
    argDefault r2r_fftpack_args "axes" = some .required ∧
    argDefault r2r_fftpack_args "forward" = some .required ∧
    argDefault c2c_args "axes" = some .noneVal ∧
    argDefault c2c_args "forward" = some (.boolVal true) ∧
    argDefault r2c_args "axes" = some .noneVal ∧
    argDefault r2c_args "forward" = some (.boolVal true) ∧
    argDefault c2r_args "axes" = some .noneVal ∧
    argDefault c2r_args "forward" = some (.boolVal true) ∧
    argDefault separable_hartley_args "axes" = some .noneVal ∧
    argDefault genuine_hartley_args "axes" = some .noneVal ∧
    (∀ r : Nat, makeaxes r none = .ok (List.range r)) :=
  ⟨rfl, rfl, rfl, rfl, rfl, rfl, rfl, rfl, rfl, rfl, fun _ => rfl⟩

/-- C6: r2c produces an output shape equal to the input shape except that
only the last axis in AxisSet order is changed from n to n/2+1, and the
normalization factor handed to the kernel is computed over the full
(unhalved) input shape. -/
theorem r2c_shape_and_norm_contract (shape : List Nat) (axes_ : Option (List Int))
    (axes : List Nat) (fwd : Bool) (inorm : Int)
    (hax : makeaxes shape.length axes_ = .ok axes) (hne : axes ≠ [])
    (hnorm : inorm = 0 ∨ inorm = 1 ∨ inorm = 2) :
    ∃ fct : ℝ,
      r2c_model shape axes_ fwd inorm =
        .ok ⟨shape, halvedShape shape axes, axes, fwd, fct⟩ ∧
      (halvedShape shape axes).getD (axes.getLastD 0) 0 =
        shape.getD (axes.getLastD 0) 0 / 2 + 1 ∧
      (∀ i, i < shape.length → i ≠ axes.getLastD 0 →
        (halvedShape shape axes).getD i 0 = shape.getD i 0) ∧
      (halvedShape shape axes).length = shape.length ∧
      (inorm = 0 → fct = 1) ∧
      (inorm = 1 → fct = 1 / Real.sqrt (prodAxes shape axes : ℝ)) ∧
      (inorm = 2 → fct = 1 / (prodAxes shape axes : ℝ)) := by
  have hlast : axes.getLastD 0 ∈ axes := getLastD_mem 0 hne
  have hlt : axes.getLastD 0 < shape.length := makeaxes_ok_bounds hax _ hlast
  obtain ⟨fct, hfct⟩ := norm_fct_ok_of_valid hnorm shape axes
  refine ⟨fct, ?_, ?_, ?_, ?_, ?_, ?_, ?_⟩
  · simp only [r2c_model, hax, hfct]
  · exact getD_set_self hlt
  · intro i _ hni
    exact getD_set_ne (Ne.symm hni)
  · simp [halvedShape]
  · intro h
    subst h
    have h2 := norm_fct_zero shape axes
    rw [hfct] at h2
    exact Except.ok.inj h2
  · intro h
    subst h
    have h2 := norm_fct_one shape axes
    rw [hfct] at h2
    exact Except.ok.inj h2
  · intro h
    subst h
    have h2 := norm_fct_two shape axes
    rw [hfct] at h2
    exact Except.ok.inj h2

/-- Witness for C6 at shape [5,7], all axes, inorm 2. -/
theorem r2c_shape_and_norm_contract_witness :
    ∃ fct : ℝ,
      r2c_model [5, 7] none true 2 =
        .ok ⟨[5, 7], halvedShape [5, 7] [0, 1], [0, 1], true, fct⟩ ∧
      (halvedShape [5, 7] [0, 1]).getD ([0, 1].getLastD 0) 0 =
        ([5, 7] : List Nat).getD ([0, 1].getLastD 0) 0 / 2 + 1 ∧
      (∀ i, i < ([5, 7] : List Nat).length → i ≠ [0, 1].getLastD 0 →
        (halvedShape [5, 7] [0, 1]).getD i 0 = ([5, 7] : List Nat).getD i 0) ∧
      (halvedShape [5, 7] [0, 1]).length = ([5, 7] : List Nat).length ∧
      ((2 : Int) = 0 → fct = 1) ∧
      ((2 : Int) = 1 → fct = 1 / Real.sqrt (prodAxes [5, 7] [0, 1] : ℝ)) ∧
      ((2 : Int) = 2 → fct = 1 / (prodAxes [5, 7] [0, 1] : ℝ)) :=
  r2c_shape_and_norm_contract [5, 7] none [0, 1] true 2 rfl (by decide)
    (Or.inr (Or.inr rfl))

/-- C1: for a real-valued input dtype, c2c dispatches to the symmetric
path: the real-to-complex kernel writes into a complex output of the same
full shape as the input, and the mirror pass sets every offset outside the
stored forward half to the complex conjugate of the value at its mirror
offset, after which the output is Hermitian-symmetric across the
transformed axes (given the kernel's contract on the stored half). -/
theorem c2c_real_input_symmetric_completion (dt : DType)
    (hdt : dt = .f64 ∨ dt = .f32 ∨ dt = .flong)
    (shape : List Nat) (axes_ : Option (List Int)) (axes : List Nat) (inorm : Int)
    (hax : makeaxes shape.length axes_ = .ok axes) (hne : axes ≠ [])
    (hnorm : inorm = 0 ∨ inorm = 1 ∨ inorm = 2)
    (Kc K : List Nat → Cplx)
    (hK : ∀ q, ValidIdx shape q → inHalf shape axes q →
        inHalf shape axes (mirrorIdx shape axes q) →
        K (mirrorIdx shape axes q) = (K q).conj) :
    c2c_model dt shape axes_ inorm Kc K =
      .ok (.symmetric, ⟨shape, c2c_sym_fill shape axes K⟩) ∧
    ∀ q, ValidIdx shape q →
      c2c_sym_fill shape axes K (mirrorIdx shape axes q) =
        (c2c_sym_fill shape axes K q).conj := by
  obtain ⟨fct, hfct⟩ := norm_fct_ok_of_valid hnorm shape axes
  constructor
  · have hkind : ¬ dt.kind = 'c' := by
      rcases hdt with rfl | rfl | rfl <;> decide
    simp only [c2c_model, if_neg hkind, if_pos hdt, hax, hfct]
  · exact sym_fill_herm shape axes hne (makeaxes_ok_bounds hax) K hK

/-- Witness for C1: real f32 input of shape [4], all axes, constant real
kernel half. -/
theorem c2c_real_input_symmetric_completion_witness :
    c2c_model .f32 [4] none 0 (fun _ => ⟨0, 0⟩) (fun _ => ⟨2, 0⟩) =
      .ok (.symmetric, ⟨[4], c2c_sym_fill [4] [0] (fun _ => ⟨2, 0⟩)⟩) ∧
    ∀ q, ValidIdx [4] q →
      c2c_sym_fill [4] [0] (fun _ => ⟨2, 0⟩) (mirrorIdx [4] [0] q) =
        (c2c_sym_fill [4] [0] (fun _ => ⟨2, 0⟩) q).conj :=
  c2c_real_input_symmetric_completion .f32 (Or.inr (Or.inl rfl)) [4] none [0] 0
    rfl (by decide) (Or.inl rfl) (fun _ => ⟨0, 0⟩) (fun _ => ⟨2, 0⟩)
    (by intro q hv h1 h2; simp [Cplx.conj])

/-- C2: genuine_hartley is the composition of r2c with forward = true over
the same axes followed by the complex2hartley folding pass; the pass
advances the forward iterator over the one-sided spectrum and the mirror
iterator over the full output in lock-step, writes re+im at the forward
output offset and re-im at the mirror offset at each step, and raises the
internal-consistency error exactly when the two iterators' element counts
(the sizes of the two iteration domains) disagree. -/
theorem genuine_hartley_composition_spec (dt : DType)
    (hdt : dt = .f64 ∨ dt = .f32 ∨ dt = .flong)
    (shape : List Nat) (axes_ : Option (List Int)) (axes : List Nat) (inorm : Int)
    (hax : makeaxes shape.length axes_ = .ok axes)
    (hnorm : inorm = 0 ∨ inorm = 1 ∨ inorm = 2)
    (K : List Nat → Cplx) (init : List Nat → ℚ) :
    (∃ run : R2CRun,
        r2c_model shape axes_ true inorm = .ok run ∧
        run.forward = true ∧
        run.dims_out = halvedShape shape axes ∧
        genuine_hartley_model dt shape axes_ inorm K init =
          complex2hartley shape axes run.dims_out K init) ∧
    (∃ g, genuine_hartley_model dt shape axes_ inorm K init = .ok g) ∧
    (∀ (tmpShape : List Nat) (tmp : List Nat → Cplx) (a : List Nat → ℚ),
        (exceptIsOk (complex2hartley shape axes tmpShape tmp a) = false ↔
          tmpShape.prod ≠ (halvedShape shape axes).prod)) ∧
    (∀ s : List Nat, (enumIndices s).length = s.prod) ∧
    (∀ (a : List Nat → ℚ) (p : List Nat) (v : Cplx),
        hartleyStep shape axes a p v (mirrorIdx shape axes p) = v.re - v.im ∧
        (mirrorIdx shape axes p ≠ p → hartleyStep shape axes a p v p = v.re + v.im)) := by
  obtain ⟨fct, hfct⟩ := norm_fct_ok_of_valid hnorm shape axes
  have hrun : r2c_model shape axes_ true inorm =
      .ok ⟨shape, halvedShape shape axes, axes, true, fct⟩ := by
    simp only [r2c_model, hax, hfct]
  have hgen : genuine_hartley_model dt shape axes_ inorm K init =
      complex2hartley shape axes (halvedShape shape axes) K init := by
    simp only [genuine_hartley_model, if_pos hdt, hrun, hax]
  refine ⟨⟨_, hrun, rfl, rfl, hgen⟩, ?_, ?_, enumIndices_length, ?_⟩
  · rw [hgen]
    unfold complex2hartley
    rw [if_neg (by simp)]
    exact ⟨_, rfl⟩
  · intro tmpShape tmp a
    by_cases hp : tmpShape.prod ≠ (halvedShape shape axes).prod
    · constructor
      · intro _
        exact hp
      · intro _
        unfold complex2hartley
        rw [if_pos hp]
        rfl
    · constructor
      · intro h
        unfold complex2hartley at h
        rw [if_neg hp] at h
        exact Bool.noConfusion h
      · intro h
        exact absurd h hp
  · intro a p v
    constructor
    · unfold hartleyStep
      rw [if_pos rfl]
    · intro hnp
      unfold hartleyStep
      rw [if_neg (fun h => hnp (Eq.symm h)), if_pos rfl]

/-- Witness for C2: f64 input of shape [4], all axes, inorm 0. -/
theorem genuine_hartley_composition_spec_witness :
    ∃ g, genuine_hartley_model .f64 [4] none 0 (fun _ => ⟨1, 0⟩) (fun _ => 0) =
      .ok g :=
  (genuine_hartley_composition_spec .f64 (Or.inl rfl) [4] none [0] 0 rfl
    (Or.inl rfl) (fun _ => ⟨1, 0⟩) (fun _ => 0)).2.1
